import Mathlib

/-!
Verification of the memflow-pointer-debug traversal engine.

The development shallowly embeds the two Rust source files:

* `src/lib.rs` — the `PointerPrint` driver: `pointer_print` (default max
  depth 5), `pointer_print_with_depth` (fresh visited set, depth 0) and the
  free function `print_with_pointer_reading`.
* `derive/src/lib.rs` — the `PointerDerefDebugPrint` derive macro.  The
  macro is compile-time code generation; what we embed is the runtime
  behaviour of the `pointer_debug_internal` procedure it generates for a
  struct: the depth guard, the header/closing lines, and the per-field
  blocks (padding skip, plain print, pointer follow with visited-set
  cycle detection).

A record value is a type name plus an ordered field list; a field is a
name, a displayed type label and either a plain (Debug-formatted) payload
or a pointer address.  Memory is a deterministic reader
`Nat → Except String Val`, matching the `MemoryView` read contract used by
the generated code (`self.field.read(mem)` returns `Ok(value)` or
`Err(e)`).

Observable behaviour is modelled as an event trace: `Evt.out s` is a
`print!`/`println!` emission (so concatenating them is exactly the console
output), `Evt.read a` records an attempted memory read at address `a`, and
`Evt.enter ty` records an invocation of the generated
`pointer_debug_internal` for a value of type `ty` (emitted before the depth
guard, mirroring procedure entry; it contributes nothing to the printed
output).

The generated procedure recurses with `depth + 1` under the guard
`depth >= max_depth`, so the quantity `max_depth - depth` strictly
decreases; the embedding makes this explicit by structural recursion on
that remaining budget (`visitGo` on fuel `k = maxDepth - depth`), which
keeps every definition kernel-computable.  `pointer_debug_internal` below
recovers the source signature exactly.
-/

/-- Character-list substring test, the model of Rust `str::contains`
(used by the derive macro as `field_name_str.contains("_pad")`). -/
def charsContain (pat : List Char) : List Char → Bool
  | [] => pat.isEmpty
  | c :: cs => pat.isPrefixOf (c :: cs) || charsContain pat cs

/-- Model of Rust `s.contains(pat)` on strings. -/
def strContains (s pat : String) : Bool :=
  charsContain pat.toList s.toList

/-- Model of Rust `format!("{:#x}", n)`: `0x` followed by lowercase
hexadecimal digits, `0x0` for zero. -/
def hexFmt (n : Nat) : String :=
  "0x" ++ String.mk (Nat.toDigits 16 n)

/-- Model of `"  ".repeat(depth)`, the per-depth indentation of the
generated code. -/
def indentStr (depth : Nat) : String :=
  String.join (List.replicate depth "  ")

/-- Runtime payload of one struct field: either a plain value with its
`Debug` rendering (the `{:?}` output), or a pointer carrying a target
address (`self.field.address().to_umem()`).  The derive macro picks the
pointer-follow code path exactly when the field's type path mentions
`Pointer`, which is what selects this constructor. -/
inductive FieldContent where
  | plain (shown : String)
  | ptr (addr : Nat)
deriving DecidableEq

/-- One struct field as the derive macro sees it: declared name, the last
path segment of its type (used as the printed type label) and its
content. -/
structure FieldD where
  name : String
  tyLabel : String
  content : FieldContent
deriving DecidableEq

/-- A record value: the struct's type name (`stringify!(#name)`) and its
fields in declaration order. -/
structure Val where
  tyName : String
  fields : List FieldD
deriving DecidableEq

/-- A deterministic memory reader: the `MemoryView` read contract,
"decode the value stored at an address, or fail with a read error". -/
abbrev Mem := Nat → Except String Val

/-- Observable events of a traversal: console output chunks, attempted
pointee reads, and entries into a generated field-visiting procedure. -/
inductive Evt where
  | out (s : String)
  | read (addr : Nat)
  | enter (ty : String)
deriving DecidableEq

/-- The per-field block generated by the derive macro
(`derive/src/lib.rs` lines 40–102), for one field:

* name contains `"_pad"`: no output at all;
* plain field: `println!("{}  {}: {} = {:?}", indent, name, ty, value)`;
* pointer field, address not yet visited: insert the address, then
  `self.field.read(mem)`; on `Ok` print `"{indent}  {name}->"` without a
  newline and recurse into the pointee at `depth + 1`; on `Err` print the
  one-line error notice and keep the inserted address;
* pointer field, address already visited: print the one-line
  already-visited notice and neither read nor recurse.

`recurse` is the pointee's own `pointer_debug_internal`, supplied by the
caller (`visitGo` passes the continuation at the remaining depth budget).
The returned pair is (events, visited set after the field). -/
def fieldStep (mem : Mem) (recurse : Val → Nat → List Nat → List Evt × List Nat)
    (f : FieldD) (depth : Nat) (visited : List Nat) : List Evt × List Nat :=
  let indent := indentStr depth
  if strContains f.name "_pad" then ([], visited)
  else
    match f.content with
    | FieldContent.plain shown =>
        ([Evt.out (indent ++ "  " ++ f.name ++ ": " ++ f.tyLabel ++ " = " ++ shown ++ "\n")],
         visited)
    | FieldContent.ptr addr =>
        if !(visited.contains addr) then
          let visited2 := addr :: visited
          match mem addr with
          | Except.ok value =>
              let sub := recurse value (depth + 1) visited2
              (Evt.read addr :: Evt.out (indent ++ "  " ++ f.name ++ "->") :: sub.1, sub.2)
          | Except.error e =>
              ([Evt.read addr,
                Evt.out (indent ++ "  " ++ f.name ++ " → Error reading: " ++ e ++ "\n")],
               visited2)
        else
          ([Evt.out (indent ++ "  " ++ f.name ++ " → Already visited address " ++
              hexFmt addr ++ "\n")], visited)

/-- Sequencing of the generated per-field blocks in declaration order
(`#(#field_debugs)*`), threading the visited set left to right. -/
def fieldsGo (mem : Mem) (recurse : Val → Nat → List Nat → List Evt × List Nat) :
    List FieldD → Nat → List Nat → List Evt × List Nat
  | [], _, visited => ([], visited)
  | f :: rest, depth, visited =>
    let step := fieldStep mem recurse f depth visited
    let restRes := fieldsGo mem recurse rest depth step.2
    (step.1 ++ restRes.1, restRes.2)

/-- Body of the generated `pointer_debug_internal`
(`derive/src/lib.rs` lines 114–137), by structural recursion on the
remaining depth budget `k = maxDepth - depth`:

* `k = 0` is exactly the source's `depth >= max_depth` guard: return
  immediately with no output (only the procedure-entry event);
* otherwise print the header — at depth 0 `"{TypeName} {"`, at depth > 0
  the inline `" {TypeName}"` — run the field blocks, and print the
  closing `"{indent}}"` line.

The recursive call inside a pointer-follow block runs at `depth + 1`
with budget `k - 1`, matching
`value.pointer_debug_internal(mem, depth + 1, max_depth, visited)`. -/
def visitGo (mem : Mem) : Nat → Val → Nat → List Nat → List Evt × List Nat
  | 0, v, _, visited => ([Evt.enter v.tyName], visited)
  | Nat.succ k, v, depth, visited =>
    let indent := indentStr depth
    let header : String :=
      if 0 < depth then " " ++ v.tyName ++ "\n"
      else indent ++ v.tyName ++ " \x7b\n"
    let body := fieldsGo mem (fun w d vis => visitGo mem k w d vis) v.fields depth visited
    (Evt.enter v.tyName :: Evt.out header :: (body.1 ++ [Evt.out (indent ++ "\x7d\n")]), body.2)

/-- The generated `pointer_debug_internal(&self, mem, depth, max_depth,
visited_addresses)`, with the source's signature: the remaining budget is
`maxDepth - depth`, zero exactly when `depth >= max_depth`. -/
def pointer_debug_internal (mem : Mem) (v : Val) (depth maxDepth : Nat)
    (visited : List Nat) : List Evt × List Nat :=
  visitGo mem (maxDepth - depth) v depth visited

/-- `pointer_print_with_depth` (`src/lib.rs` lines 82–89): create a fresh
empty visited-address set and call the internal procedure at depth 0.
The Rust method returns `()`; its observable behaviour is the event
trace, so the embedding returns the trace (the final visited set is a
discarded local, as in the source). -/
def pointer_print_with_depth (mem : Mem) (v : Val) (maxDepth : Nat) : List Evt :=
  (pointer_debug_internal mem v 0 maxDepth []).1

/-- `pointer_print` (`src/lib.rs` lines 77–80): default max depth 5. -/
def pointer_print (mem : Mem) (v : Val) : List Evt :=
  pointer_print_with_depth mem v 5

/-- The free function `print_with_pointer_reading` (`src/lib.rs` lines
140–142): delegates to `pointer_print`. -/
def print_with_pointer_reading (mem : Mem) (v : Val) : List Evt :=
  pointer_print mem v

/-- Console output of a trace: the concatenation of the `Evt.out`
chunks, in order. -/
def outputOf (evts : List Evt) : String :=
  String.join (evts.map fun e =>
    match e with
    | Evt.out s => s
    | _ => "")

/-- Type names of the field-visiting procedures entered during a trace,
in order of entry. -/
def entersOf (evts : List Evt) : List String :=
  evts.filterMap fun e =>
    match e with
    | Evt.enter t => some t
    | _ => none

/-- Addresses at which a pointee read was attempted during a trace, in
order. -/
def readsOf (evts : List Evt) : List Nat :=
  evts.filterMap fun e =>
    match e with
    | Evt.read a => some a
    | _ => none

/-- Two successive top-level `pointer_print_with_depth` calls on the same
value, reader and depth.  The generated driver's only inputs are these
three arguments — the visited set is a fresh local of each call — so a
second call is simply the same function applied again. -/
def run_twice (mem : Mem) (v : Val) (maxDepth : Nat) : String × String :=
  (outputOf (pointer_print_with_depth mem v maxDepth),
   outputOf (pointer_print_with_depth mem v maxDepth))

/-- Recursive bound on the number of trace events a visit with remaining
budget `k` can produce, when every record in memory has at most `F`
fields: entry plus header plus closing line, and at most `F` field blocks
of at most two events each plus one nested visit. -/
def evtBound (F : Nat) : Nat → Nat
  | 0 => 1
  | k + 1 => 3 + F * (2 + evtBound F k)

/-- Mutually-referencing test records: `A` holds a plain field `x` and a
pointer `ptr_b` to address `b`. -/
def Aval (b : Nat) (xv : String) : Val :=
  ⟨"A", [⟨"x", "u32", FieldContent.plain xv⟩, ⟨"ptr_b", "Pointer64", FieldContent.ptr b⟩]⟩

/-- Companion record: `B` holds a plain field `y` and a pointer `ptr_a`
back to address `a`. -/
def Bval (a : Nat) (yv : String) : Val :=
  ⟨"B", [⟨"y", "u32", FieldContent.plain yv⟩, ⟨"ptr_a", "Pointer64", FieldContent.ptr a⟩]⟩

/-- Concrete two-record cyclic memory: `A` at 0x1000 points to `B` at
0x2000, which points back to 0x1000; every other address fails to read. -/
def memAB : Mem := fun n =>
  if n = 4096 then Except.ok (Aval 8192 "1")
  else if n = 8192 then Except.ok (Bval 4096 "2")
  else Except.error "unmapped"

/-- Record with a single pointer field, for the output-format claims. -/
def Cval : Val :=
  ⟨"C", [⟨"p", "Pointer64", FieldContent.ptr 32⟩]⟩

/-- Pointee record with a single plain field. -/
def Dval : Val :=
  ⟨"D", [⟨"y", "u32", FieldContent.plain "2"⟩]⟩

/-- Memory mapping address 32 to `Dval` and failing everywhere else. -/
def memCD : Mem := fun n =>
  if n = 32 then Except.ok Dval else Except.error "bad address"

/-- Memory on which every read fails. -/
def memErr : Mem := fun _ => Except.error "unmapped"

/-- Unfolding: a visit with exhausted budget (the source's
`depth >= max_depth` guard) returns at once with no output. -/
theorem visitGo_zero (mem : Mem) (v : Val) (d : Nat) (vis : List Nat) :
    visitGo mem 0 v d vis = ([Evt.enter v.tyName], vis) := rfl

/-- Unfolding: a visit with positive budget prints the header, runs the
field blocks with budget one less for pointees, and prints the closing
line. -/
theorem visitGo_succ (mem : Mem) (k : Nat) (v : Val) (d : Nat) (vis : List Nat) :
    visitGo mem (k + 1) v d vis =
      (Evt.enter v.tyName ::
        Evt.out (if 0 < d then " " ++ v.tyName ++ "\n" else indentStr d ++ v.tyName ++ " \x7b\n") ::
        ((fieldsGo mem (fun w d' vis' => visitGo mem k w d' vis') v.fields d vis).1 ++
          [Evt.out (indentStr d ++ "\x7d\n")]),
       (fieldsGo mem (fun w d' vis' => visitGo mem k w d' vis') v.fields d vis).2) := rfl

/-- Unfolding: no fields, no events. -/
theorem fieldsGo_nil (mem : Mem) (r : Val → Nat → List Nat → List Evt × List Nat)
    (d : Nat) (vis : List Nat) : fieldsGo mem r [] d vis = ([], vis) := rfl

/-- Unfolding: field blocks run in declaration order, threading the
visited set. -/
theorem fieldsGo_cons (mem : Mem) (r : Val → Nat → List Nat → List Evt × List Nat)
    (f : FieldD) (rest : List FieldD) (d : Nat) (vis : List Nat) :
    fieldsGo mem r (f :: rest) d vis =
      ((fieldStep mem r f d vis).1 ++ (fieldsGo mem r rest d (fieldStep mem r f d vis).2).1,
       (fieldsGo mem r rest d (fieldStep mem r f d vis).2).2) := rfl

/-- A field whose name contains the padding marker emits nothing and
leaves the visited set unchanged. -/
theorem fieldStep_pad (mem : Mem) (r : Val → Nat → List Nat → List Evt × List Nat)
    (f : FieldD) (d : Nat) (vis : List Nat) (h : strContains f.name "_pad" = true) :
    fieldStep mem r f d vis = ([], vis) := by
  simp [fieldStep, h]

/-- A plain field emits exactly its formatted value line. -/
theorem fieldStep_plain (mem : Mem) (r : Val → Nat → List Nat → List Evt × List Nat)
    (nm tyl shown : String) (d : Nat) (vis : List Nat)
    (h : strContains nm "_pad" = false) :
    fieldStep mem r ⟨nm, tyl, FieldContent.plain shown⟩ d vis =
      ([Evt.out (indentStr d ++ "  " ++ nm ++ ": " ++ tyl ++ " = " ++ shown ++ "\n")], vis) := by
  simp [fieldStep, h]

/-- A pointer field whose address is already in the visited set emits
exactly the already-visited notice: no read, no recursion, set
unchanged. -/
theorem fieldStep_ptr_seen (mem : Mem) (r : Val → Nat → List Nat → List Evt × List Nat)
    (nm tyl : String) (addr : Nat) (d : Nat) (vis : List Nat)
    (hpad : strContains nm "_pad" = false) (hvis : addr ∈ vis) :
    fieldStep mem r ⟨nm, tyl, FieldContent.ptr addr⟩ d vis =
      ([Evt.out (indentStr d ++ "  " ++ nm ++ " → Already visited address " ++
          hexFmt addr ++ "\n")], vis) := by
  simp [fieldStep, hpad, hvis]

/-- A fresh pointer field whose read succeeds: the address is inserted
before the pointee is visited (the recursive call receives
`addr :: vis`), after the arrow print. -/
theorem fieldStep_ptr_ok (mem : Mem) (r : Val → Nat → List Nat → List Evt × List Nat)
    (nm tyl : String) (addr : Nat) (value : Val) (d : Nat) (vis : List Nat)
    (hpad : strContains nm "_pad" = false) (hvis : addr ∉ vis)
    (hread : mem addr = Except.ok value) :
    fieldStep mem r ⟨nm, tyl, FieldContent.ptr addr⟩ d vis =
      (Evt.read addr :: Evt.out (indentStr d ++ "  " ++ nm ++ "->") ::
         (r value (d + 1) (addr :: vis)).1,
       (r value (d + 1) (addr :: vis)).2) := by
  simp [fieldStep, hpad, hvis, hread]

/-- A fresh pointer field whose read fails: one error line, no
recursion, and the address stays inserted in the visited set. -/
theorem fieldStep_ptr_err (mem : Mem) (r : Val → Nat → List Nat → List Evt × List Nat)
    (nm tyl : String) (addr : Nat) (e : String) (d : Nat) (vis : List Nat)
    (hpad : strContains nm "_pad" = false) (hvis : addr ∉ vis)
    (hread : mem addr = Except.error e) :
    fieldStep mem r ⟨nm, tyl, FieldContent.ptr addr⟩ d vis =
      ([Evt.read addr,
        Evt.out (indentStr d ++ "  " ++ nm ++ " → Error reading: " ++ e ++ "\n")],
       addr :: vis) := by
  simp [fieldStep, hpad, hvis, hread]

/-- Padding-marker facts for the concrete field names used below. -/
theorem scontains_x : strContains "x" "_pad" = false := by decide

/-- Padding-marker fact for the field name `ptr_b`. -/
theorem scontains_ptr_b : strContains "ptr_b" "_pad" = false := by decide

/-- Padding-marker fact for the field name `y`. -/
theorem scontains_y : strContains "y" "_pad" = false := by decide

/-- Padding-marker fact for the field name `ptr_a`. -/
theorem scontains_ptr_a : strContains "ptr_a" "_pad" = false := by decide

/-- Each generated field block produces at most two events of its own
plus one nested visit, so at most `2 + B` events when every nested visit
is bounded by `B`. -/
theorem fieldStep_length_le (mem : Mem) (r : Val → Nat → List Nat → List Evt × List Nat)
    (B F : Nat)
    (hmem : ∀ a w, mem a = Except.ok w → w.fields.length ≤ F)
    (hr : ∀ w d vis, w.fields.length ≤ F → ((r w d vis).1).length ≤ B)
    (f : FieldD) (depth : Nat) (visited : List Nat) :
    ((fieldStep mem r f depth visited).1).length ≤ 2 + B := by
  obtain ⟨nm, tyl, c⟩ := f
  cases hp : strContains nm "_pad" with
  | true =>
    rw [fieldStep_pad mem r ⟨nm, tyl, c⟩ depth visited hp]
    simp
  | false =>
    cases c with
    | plain shown =>
      rw [fieldStep_plain mem r nm tyl shown depth visited hp]
      simp only [List.length_cons, List.length_nil]
      omega
    | ptr addr =>
      by_cases hv : addr ∈ visited
      · rw [fieldStep_ptr_seen mem r nm tyl addr depth visited hp hv]
        simp only [List.length_cons, List.length_nil]
        omega
      · cases hread : mem addr with
        | ok value =>
          rw [fieldStep_ptr_ok mem r nm tyl addr value depth visited hp hv hread]
          have hsub := hr value (depth + 1) (addr :: visited) (hmem addr value hread)
          simp only [List.length_cons]
          omega
        | error e =>
          rw [fieldStep_ptr_err mem r nm tyl addr e depth visited hp hv hread]
          simp only [List.length_cons, List.length_nil]
          omega

/-- The field blocks of one record produce at most
`fields.length * (2 + B)` events. -/
theorem fieldsGo_length_le (mem : Mem) (r : Val → Nat → List Nat → List Evt × List Nat)
    (B F : Nat)
    (hmem : ∀ a w, mem a = Except.ok w → w.fields.length ≤ F)
    (hr : ∀ w d vis, w.fields.length ≤ F → ((r w d vis).1).length ≤ B) :
    ∀ (fields : List FieldD) (depth : Nat) (visited : List Nat),
      ((fieldsGo mem r fields depth visited).1).length ≤ fields.length * (2 + B) := by
  intro fields
  induction fields with
  | nil =>
    intro depth visited
    simp [fieldsGo_nil]
  | cons f rest ih =>
    intro depth visited
    rw [fieldsGo_cons]
    have hstep := fieldStep_length_le mem r B F hmem hr f depth visited
    have hrest := ih depth (fieldStep mem r f depth visited).2
    simp only [List.length_append, List.length_cons]
    rw [Nat.add_mul, Nat.one_mul]
    omega

/-- A visit with remaining budget `k` over a memory whose records all
have at most `F` fields produces at most `evtBound F k` events. -/
theorem visitGo_length_le (mem : Mem) (F : Nat)
    (hmem : ∀ a w, mem a = Except.ok w → w.fields.length ≤ F) :
    ∀ (k : Nat) (v : Val) (depth : Nat) (visited : List Nat),
      v.fields.length ≤ F → ((visitGo mem k v depth visited).1).length ≤ evtBound F k := by
  intro k
  induction k with
  | zero =>
    intro v depth visited _
    simp [visitGo_zero, evtBound]
  | succ k ih =>
    intro v depth visited hv
    rw [visitGo_succ]
    have hb := fieldsGo_length_le mem (fun w d' vis' => visitGo mem k w d' vis')
      (evtBound F k) F hmem (fun w d vis hw => ih w d vis hw) v.fields depth visited
    have hf : v.fields.length * (2 + evtBound F k) ≤ F * (2 + evtBound F k) :=
      Nat.mul_le_mul hv (Nat.le_refl _)
    have hbound : evtBound F (k + 1) = 3 + F * (2 + evtBound F k) := rfl
    simp only [List.length_cons, List.length_append, List.length_nil]
    omega

/-- Claim C1 counterexample: in the two-record cycle `A → B → A`
(`memAB`, `A` at 0x1000, `B` at 0x2000), traversing `A` with
`max_depth = 2` re-enters `A`'s field-visiting procedure a second time
(the entry list is `[A, B, A]`) and the output contains no
"Already visited" notice at all: the root's own address was never placed
in the visited set, so `B`'s back-reference is followed, not
short-circuited. -/
theorem c1_counterexample :
    entersOf (pointer_print_with_depth memAB (Aval 8192 "1") 2) = ["A", "B", "A"]
    ∧ strContains (outputOf (pointer_print_with_depth memAB (Aval 8192 "1") 2))
        "Already visited" = false := by
  decide

/-- Claim C1 (amended): for records `A` (plain field `x`, pointer `ptr_b`
to address `b`) and `B` (plain field `y`, pointer `ptr_a` to address
`a`) with `mem a = A`, `mem b = B` and `a ≠ b`, traversing `A` with
`max_depth = 3` prints `B`'s fields exactly once, but the back-reference
to `A`'s address is followed rather than reported: `A`'s field-visiting
procedure is entered a second time (entries `[A, B, A]`, reads
`[b, a]`), and the "already visited" notice is printed only inside the
re-entered `A`, for its pointer to `B`'s address `b`. -/
theorem c1_cycle_amended (mem : Mem) (a b : Nat) (xv yv : String)
    (hab : a ≠ b)
    (hma : mem a = Except.ok (Aval b xv))
    (hmb : mem b = Except.ok (Bval a yv)) :
    entersOf (pointer_print_with_depth mem (Aval b xv) 3) = ["A", "B", "A"]
    ∧ Evt.out (indentStr 2 ++ "  " ++ "ptr_b" ++ " → Already visited address " ++
        hexFmt b ++ "\n") ∈ pointer_print_with_depth mem (Aval b xv) 3
    ∧ readsOf (pointer_print_with_depth mem (Aval b xv) 3) = [b, a] := by
  have hc0 : (([] : List Nat).contains b) = false := by simp
  have hc1 : ([b].contains a) = false := by simp [List.contains, hab]
  have hc2 : (([a, b] : List Nat).contains b) = true := by simp [List.contains]
  have htrace : pointer_print_with_depth mem (Aval b xv) 3 =
      [Evt.enter "A",
       Evt.out (indentStr 0 ++ "A" ++ " \x7b\n"),
       Evt.out (indentStr 0 ++ "  " ++ "x" ++ ": " ++ "u32" ++ " = " ++ xv ++ "\n"),
       Evt.read b,
       Evt.out (indentStr 0 ++ "  " ++ "ptr_b" ++ "->"),
       Evt.enter "B",
       Evt.out (" " ++ "B" ++ "\n"),
       Evt.out (indentStr 1 ++ "  " ++ "y" ++ ": " ++ "u32" ++ " = " ++ yv ++ "\n"),
       Evt.read a,
       Evt.out (indentStr 1 ++ "  " ++ "ptr_a" ++ "->"),
       Evt.enter "A",
       Evt.out (" " ++ "A" ++ "\n"),
       Evt.out (indentStr 2 ++ "  " ++ "x" ++ ": " ++ "u32" ++ " = " ++ xv ++ "\n"),
       Evt.out (indentStr 2 ++ "  " ++ "ptr_b" ++ " → Already visited address " ++
          hexFmt b ++ "\n"),
       Evt.out (indentStr 2 ++ "\x7d\n"),
       Evt.out (indentStr 1 ++ "\x7d\n"),
       Evt.out (indentStr 0 ++ "\x7d\n")] := by
    simp only [pointer_print_with_depth, pointer_debug_internal, Nat.sub_zero, visitGo,
      fieldsGo, fieldStep, Aval, Bval, hma, hmb, hc0, hc1, hc2, scontains_x, scontains_ptr_b,
      scontains_y, scontains_ptr_a, Bool.not_false, Bool.not_true, if_true, if_false,
      Nat.lt_irrefl, Nat.zero_lt_succ, List.cons_append, List.nil_append, List.append_assoc,
      Bool.false_eq_true, ite_false, ite_true, decide_True, decide_False]
  refine ⟨?_, ?_, ?_⟩
  · rw [htrace]; simp [entersOf]
  · rw [htrace]; simp
  · rw [htrace]; simp [readsOf]

/-- Claim C1 witness: the amended statement at the concrete cyclic
memory `memAB`. -/
theorem c1_cycle_amended_witness :
    entersOf (pointer_print_with_depth memAB (Aval 8192 "1") 3) = ["A", "B", "A"]
    ∧ Evt.out (indentStr 2 ++ "  " ++ "ptr_b" ++ " → Already visited address " ++
        hexFmt 8192 ++ "\n") ∈ pointer_print_with_depth memAB (Aval 8192 "1") 3
    ∧ readsOf (pointer_print_with_depth memAB (Aval 8192 "1") 3) = [8192, 4096] :=
  c1_cycle_amended memAB 4096 8192 "1" "2" (by decide) rfl rfl

/-- Claim C2 counterexample: with `max_depth = 0` the traversal of the
two-field record `A` prints nothing — in particular not the root header
and closing delimiter the claim requires — because the generated depth
guard `depth >= max_depth` fires before the header is printed. -/
theorem c2_counterexample :
    outputOf (pointer_print_with_depth memAB (Aval 8192 "1") 0) = ""
    ∧ outputOf (pointer_print_with_depth memAB (Aval 8192 "1") 0) ≠ "A \x7b\n\x7d\n" := by
  decide

/-- Claim C2 (amended): a traversal with `max_depth = 0` produces no
output at all, for every value and memory reader: the guard returns from
`pointer_debug_internal` before the root's header line is printed, so
the trace holds only the procedure-entry event. -/
theorem c2_depth_zero_no_output (mem : Mem) (v : Val) :
    pointer_print_with_depth mem v 0 = [Evt.enter v.tyName]
    ∧ outputOf (pointer_print_with_depth mem v 0) = "" :=
  ⟨rfl, rfl⟩

/-- Claim C3: visited-set discipline of the generated pointer-follow
block, for the block as invoked with the engine continuation
`visitGo mem k` and any non-padding pointer field. (1) If the address is
already in the visited set, the field contributes exactly the one-line
already-visited notice naming the field and address — no read event, no
procedure entry, visited set unchanged. (2) If the address is fresh and
the read succeeds, the pointee's visit receives `addr :: visited`: the
address is inserted strictly before the pointee is read and traversed, so
a back-link to it is recognized. (3) If the address is fresh and the read
fails, the error line is printed and the remaining fields still see
`addr :: visited`. -/
theorem c3_visited_set_discipline (mem : Mem) (k depth : Nat) (nm tyl : String) (addr : Nat)
    (rest : List FieldD) (visited : List Nat)
    (hpad : strContains nm "_pad" = false) :
    (addr ∈ visited →
      fieldsGo mem (visitGo mem k) (⟨nm, tyl, FieldContent.ptr addr⟩ :: rest) depth visited =
        (Evt.out (indentStr depth ++ "  " ++ nm ++ " → Already visited address " ++
            hexFmt addr ++ "\n") ::
           (fieldsGo mem (visitGo mem k) rest depth visited).1,
         (fieldsGo mem (visitGo mem k) rest depth visited).2))
    ∧ (addr ∉ visited → ∀ value, mem addr = Except.ok value →
        fieldsGo mem (visitGo mem k) (⟨nm, tyl, FieldContent.ptr addr⟩ :: rest) depth visited =
          (Evt.read addr :: Evt.out (indentStr depth ++ "  " ++ nm ++ "->") ::
             ((visitGo mem k value (depth + 1) (addr :: visited)).1 ++
              (fieldsGo mem (visitGo mem k) rest depth
                 (visitGo mem k value (depth + 1) (addr :: visited)).2).1),
           (fieldsGo mem (visitGo mem k) rest depth
              (visitGo mem k value (depth + 1) (addr :: visited)).2).2))
    ∧ (addr ∉ visited → ∀ e, mem addr = Except.error e →
        fieldsGo mem (visitGo mem k) (⟨nm, tyl, FieldContent.ptr addr⟩ :: rest) depth visited =
          (Evt.read addr ::
             Evt.out (indentStr depth ++ "  " ++ nm ++ " → Error reading: " ++ e ++ "\n") ::
             (fieldsGo mem (visitGo mem k) rest depth (addr :: visited)).1,
           (fieldsGo mem (visitGo mem k) rest depth (addr :: visited)).2)) := by
  refine ⟨fun hv => ?_, fun hv value hread => ?_, fun hv e hread => ?_⟩
  · rw [fieldsGo_cons, fieldStep_ptr_seen mem (visitGo mem k) nm tyl addr depth visited hpad hv]
    simp
  · rw [fieldsGo_cons,
      fieldStep_ptr_ok mem (visitGo mem k) nm tyl addr value depth visited hpad hv hread]
    simp
  · rw [fieldsGo_cons,
      fieldStep_ptr_err mem (visitGo mem k) nm tyl addr e depth visited hpad hv hread]
    simp

/-- Claim C3 witness: the three cases at concrete inputs over `memAB` —
an already-visited address 0x1000, a fresh successful read at 0x2000,
and a fresh failing read at 13. -/
theorem c3_visited_set_discipline_witness :
    fieldsGo memAB (visitGo memAB 1) [⟨"p", "Pointer64", FieldContent.ptr 4096⟩] 0 [4096] =
      ([Evt.out "  p → Already visited address 0x1000\n"], [4096])
    ∧ fieldsGo memAB (visitGo memAB 1) [⟨"p", "Pointer64", FieldContent.ptr 8192⟩] 0 [] =
      ([Evt.read 8192, Evt.out "  p->", Evt.enter "B", Evt.out " B\n",
        Evt.out "    y: u32 = 2\n", Evt.read 4096, Evt.out "    ptr_a->", Evt.enter "A",
        Evt.out "  \x7d\n"], [4096, 8192])
    ∧ fieldsGo memAB (visitGo memAB 1) [⟨"p", "Pointer64", FieldContent.ptr 13⟩] 0 [] =
      ([Evt.read 13, Evt.out "  p → Error reading: unmapped\n"], [13]) :=
  ⟨((c3_visited_set_discipline memAB 1 0 "p" "Pointer64" 4096 [] [4096] (by decide)).1
      (by decide)).trans (by decide),
   ((c3_visited_set_discipline memAB 1 0 "p" "Pointer64" 8192 [] [] (by decide)).2.1
      (by decide) (Bval 4096 "2") rfl).trans (by decide),
   ((c3_visited_set_discipline memAB 1 0 "p" "Pointer64" 13 [] [] (by decide)).2.2
      (by decide) "unmapped" rfl).trans (by decide)⟩

/-- Claim C4: every top-level traversal terminates with finite output —
the trace of `pointer_print_with_depth` is a list of length at most
`evtBound F maxDepth` whenever every record (the root and every readable
pointee) has at most `F` fields — and every visit at
`depth ≥ max_depth` returns immediately with no output, which is the
depth guard the bound rests on.  (The embedding itself is a total
structurally-recursive function on the budget `max_depth - depth`, which
decreases by one at each recursive visit because the pointee runs at
`depth + 1`.) -/
theorem c4_terminates_bounded (mem : Mem) (v : Val) (maxDepth F : Nat)
    (hv : v.fields.length ≤ F)
    (hmem : ∀ a w, mem a = Except.ok w → w.fields.length ≤ F) :
    (pointer_print_with_depth mem v maxDepth).length ≤ evtBound F maxDepth
    ∧ ∀ depth visited, maxDepth ≤ depth →
        pointer_debug_internal mem v depth maxDepth visited = ([Evt.enter v.tyName], visited) := by
  constructor
  · have h := visitGo_length_le mem F hmem maxDepth v 0 [] hv
    simpa [pointer_print_with_depth, pointer_debug_internal] using h
  · intro depth visited hle
    have h0 : maxDepth - depth = 0 := Nat.sub_eq_zero_of_le hle
    simp [pointer_debug_internal, h0, visitGo_zero]

/-- Claim C4 witness: the bound and the guard at a concrete record,
depth and all-failing memory. -/
theorem c4_terminates_bounded_witness :
    (pointer_print_with_depth memErr (Aval 8192 "1") 5).length ≤ evtBound 2 5
    ∧ pointer_debug_internal memErr (Aval 8192 "1") 7 5 [3] = ([Evt.enter "A"], [3]) :=
  ⟨(c4_terminates_bounded memErr (Aval 8192 "1") 5 2 (by decide)
      (fun a w h => by simp [memErr] at h)).1,
   (c4_terminates_bounded memErr (Aval 8192 "1") 5 2 (by decide)
      (fun a w h => by simp [memErr] at h)).2 7 [3] (by decide)⟩

/-- Claim C5: read-error isolation. When a fresh pointer field's read
fails, the field contributes exactly the read attempt and the one-line
error notice naming the field and the error — in particular no
procedure-entry event, so no recursion on that branch — and the
remaining sibling fields are still processed by the very same
field-block sequencing (with the failed address now in the visited set).
The result is an ordinary pair, not a failure: the generated procedure
returns normally, so the error never propagates to the caller. -/
theorem c5_read_error_isolated (mem : Mem) (k depth : Nat) (nm tyl : String) (addr : Nat)
    (e : String) (rest : List FieldD) (visited : List Nat)
    (hpad : strContains nm "_pad" = false)
    (hvis : addr ∉ visited)
    (hread : mem addr = Except.error e) :
    fieldsGo mem (visitGo mem k) (⟨nm, tyl, FieldContent.ptr addr⟩ :: rest) depth visited =
      (Evt.read addr ::
       Evt.out (indentStr depth ++ "  " ++ nm ++ " → Error reading: " ++ e ++ "\n") ::
       (fieldsGo mem (visitGo mem k) rest depth (addr :: visited)).1,
       (fieldsGo mem (visitGo mem k) rest depth (addr :: visited)).2) := by
  rw [fieldsGo_cons,
    fieldStep_ptr_err mem (visitGo mem k) nm tyl addr e depth visited hpad hvis hread]
  simp

/-- Claim C5 witness: a failing read at address 13 followed by a plain
sibling and a pointer sibling, both printed in full. -/
theorem c5_read_error_isolated_witness :
    fieldsGo memAB (visitGo memAB 2)
      [⟨"p", "Pointer64", FieldContent.ptr 13⟩, ⟨"z", "u64", FieldContent.plain "9"⟩,
       ⟨"q", "Pointer64", FieldContent.ptr 8192⟩] 0 [] =
      ([Evt.read 13, Evt.out "  p → Error reading: unmapped\n", Evt.out "  z: u64 = 9\n",
        Evt.read 8192, Evt.out "  q->", Evt.enter "B", Evt.out " B\n", Evt.out "    y: u32 = 2\n",
        Evt.read 4096, Evt.out "    ptr_a->", Evt.enter "A", Evt.out " A\n",
        Evt.out "      x: u32 = 1\n", Evt.out "      ptr_b → Already visited address 0x2000\n",
        Evt.out "    \x7d\n", Evt.out "  \x7d\n"], [4096, 8192, 13]) :=
  (c5_read_error_isolated memAB 2 0 "p" "Pointer64" 13 "unmapped"
      [⟨"z", "u64", FieldContent.plain "9"⟩, ⟨"q", "Pointer64", FieldContent.ptr 8192⟩] []
      (by decide) (by decide) rfl).trans (by decide)

/-- Claim C6 counterexample: for record `C` with one pointer field `p`
to a `D` record, the actual output of a depth-5 traversal is
`"C {"`, `"  p-> D"` (no opening brace after the pointee's type name),
the nested field line, and the closing braces — the substring `"D {"`
the claim requires never occurs. -/
theorem c6_counterexample :
    outputOf (pointer_print_with_depth memCD Cval 5) =
      "C \x7b\n  p-> D\n    y: u32 = 2\n  \x7d\n\x7d\n"
    ∧ strContains (outputOf (pointer_print_with_depth memCD Cval 5)) "D \x7b" = false := by
  decide

/-- Claim C6 (amended): on a successful pointer read whose pointee is
still below the depth ceiling (remaining budget `k + 1`), the field's
output is the field name followed by `->`, then a space and the
pointee's type name with no opening brace, then the pointee's nested
field lines, then a closing brace indented one level deeper than the
referencing record's indent; the remaining sibling fields follow. -/
theorem c6_pointer_success_format (mem : Mem) (k depth : Nat) (nm tyl : String) (addr : Nat)
    (value : Val) (rest : List FieldD) (visited : List Nat)
    (hpad : strContains nm "_pad" = false)
    (hvis : addr ∉ visited)
    (hread : mem addr = Except.ok value) :
    fieldsGo mem (visitGo mem (k + 1)) (⟨nm, tyl, FieldContent.ptr addr⟩ :: rest) depth visited =
      (Evt.read addr ::
       Evt.out (indentStr depth ++ "  " ++ nm ++ "->") ::
       Evt.enter value.tyName ::
       Evt.out (" " ++ value.tyName ++ "\n") ::
       ((fieldsGo mem (visitGo mem k) value.fields (depth + 1) (addr :: visited)).1 ++
        Evt.out (indentStr (depth + 1) ++ "\x7d\n") ::
        (fieldsGo mem (visitGo mem (k + 1)) rest depth
           (fieldsGo mem (visitGo mem k) value.fields (depth + 1) (addr :: visited)).2).1),
       (fieldsGo mem (visitGo mem (k + 1)) rest depth
          (fieldsGo mem (visitGo mem k) value.fields (depth + 1) (addr :: visited)).2).2) := by
  rw [fieldsGo_cons,
    fieldStep_ptr_ok mem (visitGo mem (k + 1)) nm tyl addr value depth visited hpad hvis hread,
    visitGo_succ]
  simp [Nat.zero_lt_succ, List.cons_append, List.append_assoc]

/-- Claim C6 witness: the amended format at the concrete record `C`
pointing to `D`. -/
theorem c6_pointer_success_format_witness :
    fieldsGo memCD (visitGo memCD 4) [⟨"p", "Pointer64", FieldContent.ptr 32⟩] 0 [] =
      ([Evt.read 32, Evt.out "  p->", Evt.enter "D", Evt.out " D\n",
        Evt.out "    y: u32 = 2\n", Evt.out "  \x7d\n"], [32]) :=
  (c6_pointer_success_format memCD 3 0 "p" "Pointer64" 32 Dval [] []
      (by decide) (by decide) rfl).trans (by decide)

/-- Claim C7: `pointer_print` and the free function
`print_with_pointer_reading` each produce exactly the trace — hence
exactly the output — of `pointer_print_with_depth` at the default depth
5, for every value and memory reader. -/
theorem c7_default_depth_equiv (mem : Mem) (v : Val) :
    pointer_print mem v = pointer_print_with_depth mem v 5
    ∧ print_with_pointer_reading mem v = pointer_print_with_depth mem v 5
    ∧ outputOf (pointer_print mem v) = outputOf (pointer_print_with_depth mem v 5)
    ∧ outputOf (print_with_pointer_reading mem v) =
        outputOf (pointer_print_with_depth mem v 5) :=
  ⟨rfl, rfl, rfl, rfl⟩

/-- Claim C8: two top-level traversals of the same value with the same
max depth and the same (deterministic) memory reader produce
byte-identical output, and each top-level call starts the internal
procedure from the empty visited set — the set is a local of the call,
so no visited-set state can carry over.  The final conjunct shows the
freshness is observable: starting the internal procedure from a stale
visited set can change the output, so byte-identical replays rely on the
reset. -/
theorem c8_fresh_visited_set :
    (∀ (mem : Mem) (v : Val) (maxDepth : Nat),
       (run_twice mem v maxDepth).1 = (run_twice mem v maxDepth).2
       ∧ pointer_print_with_depth mem v maxDepth = (pointer_debug_internal mem v 0 maxDepth []).1)
    ∧ ∃ (mem : Mem) (v : Val) (maxDepth : Nat) (stale : List Nat),
        (visitGo mem maxDepth v 0 stale).1 ≠ (visitGo mem maxDepth v 0 []).1 := by
  constructor
  · exact fun mem v maxDepth => ⟨rfl, rfl⟩
  · exact ⟨memAB, Aval 8192 "1", 2, [8192], by decide⟩

/-- Claim C9: a field whose name contains the padding marker `"_pad"`
contributes nothing to the trace — the field-block sequence on
`f :: rest` equals the sequence on `rest` alone — for every field
content, pointer-valued fields included. -/
theorem c9_padding_skipped (mem : Mem) (k depth : Nat) (f : FieldD) (rest : List FieldD)
    (visited : List Nat) (hpad : strContains f.name "_pad" = true) :
    fieldsGo mem (visitGo mem k) (f :: rest) depth visited =
      fieldsGo mem (visitGo mem k) rest depth visited := by
  rw [fieldsGo_cons, fieldStep_pad mem (visitGo mem k) f depth visited hpad]
  simp

/-- Claim C9 witness: a pointer-valued padding field named `foo_pad`
produces no events. -/
theorem c9_padding_skipped_witness :
    fieldsGo memAB (visitGo memAB 2) [⟨"foo_pad", "Pointer64", FieldContent.ptr 4096⟩] 0 [] =
      fieldsGo memAB (visitGo memAB 2) [] 0 [] :=
  c9_padding_skipped memAB 2 0 ⟨"foo_pad", "Pointer64", FieldContent.ptr 4096⟩ [] [] (by decide)

/-- Claim C10: no rollback of the visited set on read failure. For two
pointer fields holding the same fresh address whose read fails, the
first field inserts the address and prints the error notice; the second
field finds the address still present and prints the already-visited
notice — only one read event occurs, and the address remains in the
final visited set. -/
theorem c10_visited_persists_after_error (mem : Mem) (k depth : Nat)
    (n1 n2 tyl1 tyl2 : String) (addr : Nat) (e : String) (visited : List Nat)
    (h1 : strContains n1 "_pad" = false) (h2 : strContains n2 "_pad" = false)
    (hvis : addr ∉ visited) (hread : mem addr = Except.error e) :
    fieldsGo mem (visitGo mem k)
        [⟨n1, tyl1, FieldContent.ptr addr⟩, ⟨n2, tyl2, FieldContent.ptr addr⟩] depth visited =
      ([Evt.read addr,
        Evt.out (indentStr depth ++ "  " ++ n1 ++ " → Error reading: " ++ e ++ "\n"),
        Evt.out (indentStr depth ++ "  " ++ n2 ++ " → Already visited address " ++
          hexFmt addr ++ "\n")],
       addr :: visited) := by
  rw [fieldsGo_cons,
    fieldStep_ptr_err mem (visitGo mem k) n1 tyl1 addr e depth visited h1 hvis hread]
  rw [fieldsGo_cons,
    fieldStep_ptr_seen mem (visitGo mem k) n2 tyl2 addr depth (addr :: visited) h2
      (List.mem_cons_self addr visited)]
  rw [fieldsGo_nil]
  simp

/-- Claim C10 witness: two pointer fields at the unreadable address 13. -/
theorem c10_visited_persists_after_error_witness :
    fieldsGo memAB (visitGo memAB 2)
        [⟨"p1", "Pointer64", FieldContent.ptr 13⟩, ⟨"p2", "Pointer64", FieldContent.ptr 13⟩]
        0 [] =
      ([Evt.read 13, Evt.out "  p1 → Error reading: unmapped\n",
        Evt.out "  p2 → Already visited address 0xd\n"], [13]) :=
  (c10_visited_persists_after_error memAB 2 0 "p1" "p2" "Pointer64" "Pointer64" 13 "unmapped" []
      (by decide) (by decide) (by decide) rfl).trans (by decide)
